import Mathlib

/-!
Verification development for the invoice-scout extraction pipeline.

Python strings are modelled as lists of characters (`PyStr`); `str.strip`
is modelled over the ASCII whitespace characters, `str.lower` as ASCII
case folding, and the regular-expression character class `\d` as the ASCII
digits.  JSON values produced by `json.loads` are modelled by the
inductive type `JVal` (numbers as integers), and Python dictionaries by
insertion-ordered association lists with first-occurrence lookup and
replace-first-or-append update, which is how `dict.get` and item
assignment behave.
-/

set_option autoImplicit false

namespace InvoiceScout

/-- Model of a Python `str`: a list of characters. -/
abbrev PyStr := List Char

/-- Embed a Lean string literal as a `PyStr`. -/
def pstr (s : String) : PyStr := s.data

/-- The opening curly bracket character. -/
def lbrace : Char := Char.ofNat 123

/-- The closing curly bracket character. -/
def rbrace : Char := Char.ofNat 125

/-- ASCII whitespace, the characters removed by `str.strip()`. -/
def isPySpace (c : Char) : Bool :=
  c = ' ' || c = '\t' || c = '\n' || c = '\r' || c = '\x0b' || c = '\x0c'

/-- Left part of `str.strip()`: drop leading whitespace. -/
def lstrip (s : PyStr) : PyStr := s.dropWhile isPySpace

/-- Right part of `str.strip()`: drop trailing whitespace. -/
def rstrip (s : PyStr) : PyStr := (s.reverse.dropWhile isPySpace).reverse

/-- Model of Python `str.strip()` with no arguments. -/
def pyStrip (s : PyStr) : PyStr := rstrip (lstrip s)

/-- ASCII case folding for one character, model of `str.lower` on ASCII. -/
def asciiLower (c : Char) : Char :=
  if 'A' ≤ c ∧ c ≤ 'Z' then Char.ofNat (c.toNat + 32) else c

/-- Model of Python `str.lower()`. -/
def pyLower (s : PyStr) : PyStr := s.map asciiLower

/-- Index of the first occurrence of `c`, model of `str.find` on a
single-character needle that is known to occur. -/
def findIdx (c : Char) : PyStr → Nat
  | [] => 0
  | x :: xs => if x = c then 0 else findIdx c xs + 1

/-- Index of the last occurrence of `c`, model of `str.rfind` on a
single-character needle that is known to occur. -/
def rfindIdx (c : Char) (s : PyStr) : Nat :=
  s.length - 1 - findIdx c s.reverse

/-! ### utils.strip_code_fences -/

/-- The fence-removal block of `strip_code_fences` (`utils.py` lines
12-17): strip a leading triple backtick, an optional `json` tag, and a
trailing triple backtick. -/
def fenceStep (s : PyStr) : PyStr :=
  if (pstr "```").isPrefixOf s then
    let s1 := s.drop 3
    let s2 := if (pstr "json").isPrefixOf s1 then s1.drop 4 else s1
    if (pstr "```").isSuffixOf s2 then s2.take (s2.length - 3) else s2
  else s

/-- The brace-extraction block of `strip_code_fences` (`utils.py` lines
20-24): cut to the span from the first opening to the last closing curly
bracket when the former precedes the latter. -/
def braceStep (s : PyStr) : PyStr :=
  if lbrace ∈ s ∧ rbrace ∈ s then
    if findIdx lbrace s < rfindIdx rbrace s then
      (s.drop (findIdx lbrace s)).take (rfindIdx rbrace s + 1 - findIdx lbrace s)
    else s
  else s

/-- Model of `strip_code_fences` (`utils.py` lines 6-26): empty input is
returned as-is, otherwise strip whitespace, remove fences, strip, extract
the brace span, and strip once more. -/
def strip_code_fences (content : PyStr) : PyStr :=
  if content = [] then content
  else pyStrip (braceStep (pyStrip (fenceStep (pyStrip content))))

/-! ### config.InvoiceExtract date normalization -/

/-- Model of `DATE_DD_MM_YYYY_RE.match`: anchored prefix match of
`(\d{2})\.(\d{2})\.(\d{4})`, returning the captured digit characters.
`re.match` anchors only at the start of the string; trailing characters
are permitted. -/
def matchDDMMYYYY : PyStr → Option (Char × Char × Char × Char × Char × Char × Char × Char)
  | d1 :: d2 :: p1 :: m1 :: m2 :: p2 :: y1 :: y2 :: y3 :: y4 :: _ =>
    if d1.isDigit ∧ d2.isDigit ∧ p1 = '.' ∧ m1.isDigit ∧ m2.isDigit ∧ p2 = '.' ∧
        y1.isDigit ∧ y2.isDigit ∧ y3.isDigit ∧ y4.isDigit then
      some (d1, d2, m1, m2, y1, y2, y3, y4)
    else none
  | _ => none

/-- Model of `DATE_YYYY_MM_DD_RE.match`: anchored prefix match of
`(\d{4})-(\d{2})-(\d{2})`. -/
def matchYYYYMMDD : PyStr → Bool
  | y1 :: y2 :: y3 :: y4 :: p1 :: m1 :: m2 :: p2 :: d1 :: d2 :: _ =>
    decide (y1.isDigit ∧ y2.isDigit ∧ y3.isDigit ∧ y4.isDigit ∧ p1 = '-' ∧
      m1.isDigit ∧ m2.isDigit ∧ p2 = '-' ∧ d1.isDigit ∧ d2.isDigit)
  | _ => false

/-- Numeric value of an ASCII digit character. -/
def digitVal (c : Char) : Nat := c.toNat - 48

/-- Full English month names with their numbers, lower-cased, as matched
by `strptime`'s `%B` directive (case-insensitively). -/
def monthsFull : List (PyStr × Nat) :=
  [(pstr "january", 1), (pstr "february", 2), (pstr "march", 3), (pstr "april", 4),
   (pstr "may", 5), (pstr "june", 6), (pstr "july", 7), (pstr "august", 8),
   (pstr "september", 9), (pstr "october", 10), (pstr "november", 11),
   (pstr "december", 12)]

/-- Abbreviated English month names with their numbers, as matched by
`strptime`'s `%b` directive. -/
def monthsAbbr : List (PyStr × Nat) :=
  [(pstr "jan", 1), (pstr "feb", 2), (pstr "mar", 3), (pstr "apr", 4),
   (pstr "may", 5), (pstr "jun", 6), (pstr "jul", 7), (pstr "aug", 8),
   (pstr "sep", 9), (pstr "oct", 10), (pstr "nov", 11), (pstr "dec", 12)]

/-- Match one month name from `names` case-insensitively at the head of
`s`; no month name is a proper head of another, so at most one matches. -/
def matchMonth (names : List (PyStr × Nat)) (s : PyStr) : Option (Nat × PyStr) :=
  names.findSome? fun nm =>
    if pyLower (s.take nm.1.length) = nm.1 then some (nm.2, s.drop nm.1.length)
    else none

/-- `\s+`, the translation `strptime` applies to whitespace in a format
string: require at least one whitespace character, consume greedily. -/
def skipSpaces1 (s : PyStr) : Option PyStr :=
  match s with
  | c :: rest => if isPySpace c then some (rest.dropWhile isPySpace) else none
  | [] => none

/-- The alternatives of `strptime`'s `%d` regex fragment
`(3[01]|[12]\d|0[1-9]|[1-9])`, in the order the regex engine tries them;
the single-digit alternative remains available for backtracking after a
two-digit one. -/
def dayCandidates : PyStr → List (Nat × PyStr)
  | a :: b :: rest =>
    (if a = '3' ∧ (b = '0' ∨ b = '1') then [(30 + digitVal b, rest)]
     else if (a = '1' ∨ a = '2') ∧ b.isDigit then [(digitVal a * 10 + digitVal b, rest)]
     else if a = '0' ∧ '1' ≤ b ∧ b ≤ '9' then [(digitVal b, rest)]
     else []) ++
    (if '1' ≤ a ∧ a ≤ '9' then [(digitVal a, b :: rest)] else [])
  | [a] => if '1' ≤ a ∧ a ≤ '9' then [(digitVal a, ([] : PyStr))] else []
  | [] => []

/-- `strptime`'s `%Y` regex fragment: exactly four digits. -/
def parseYear4 : PyStr → Option (Nat × PyStr)
  | a :: b :: c :: d :: rest =>
    if a.isDigit ∧ b.isDigit ∧ c.isDigit ∧ d.isDigit then
      some (digitVal a * 1000 + digitVal b * 100 + digitVal c * 10 + digitVal d, rest)
    else none
  | _ => none

/-- Gregorian leap-year rule used by `datetime`. -/
def isLeap (y : Nat) : Bool := y % 4 = 0 && (y % 100 ≠ 0 || y % 400 = 0)

/-- Days in a month as validated by the `datetime` constructor. -/
def daysInMonth (y m : Nat) : Nat :=
  if m = 2 then (if isLeap y then 29 else 28)
  else if m = 4 ∨ m = 6 ∨ m = 9 ∨ m = 11 then 30
  else 31

/-- The regex phase of `strptime(value, "<month> %d, %Y")`: month name,
whitespace, day, literal comma, whitespace, four-digit year, with the
whole input consumed (`strptime` rejects unconverted leftovers). -/
def monthFmtRegex (names : List (PyStr × Nat)) (s : PyStr) : Option (Nat × Nat × Nat) :=
  match matchMonth names s with
  | none => none
  | some (m, s1) =>
    match skipSpaces1 s1 with
    | none => none
    | some s2 =>
      (dayCandidates s2).findSome? fun dc =>
        match dc.2 with
        | ',' :: s4 =>
          match skipSpaces1 s4 with
          | none => none
          | some s5 =>
            match parseYear4 s5 with
            | some (y, []) => some (y, m, dc.1)
            | _ => none
        | _ => none

/-- Model of `datetime.strptime(value, fmt)` for the two month-name
formats: regex match, then calendar validation by the `datetime`
constructor (year at least 1, day within the month). -/
def strptimeMonthFmt (names : List (PyStr × Nat)) (s : PyStr) : Option (Nat × Nat × Nat) :=
  match monthFmtRegex names s with
  | some (y, m, d) => if 1 ≤ y ∧ 1 ≤ d ∧ d ≤ daysInMonth y m then some (y, m, d) else none
  | none => none

/-- Zero-pad a number to two digits, as `strftime("%m"/"%d")` does. -/
def pad2 (n : Nat) : PyStr :=
  if n < 10 then '0' :: pstr (toString n) else pstr (toString n)

/-- Zero-pad a number to four digits, as `strftime("%Y")` does. -/
def pad4 (n : Nat) : PyStr :=
  if n < 10 then pstr "000" ++ pstr (toString n)
  else if n < 100 then pstr "00" ++ pstr (toString n)
  else if n < 1000 then '0' :: pstr (toString n)
  else pstr (toString n)

/-- `parsed.strftime("%Y-%m-%d")`. -/
def formatDate (y m d : Nat) : PyStr := pad4 y ++ ['-'] ++ pad2 m ++ ['-'] ++ pad2 d

/-- The failure raised by `InvoiceExtract._normalize_invoice_date` when no
date rule matches (surfacing as a validation error). -/
inductive DateError
  | invalidFormat
  deriving DecidableEq, Repr

/-- Model of `InvoiceExtract._normalize_invoice_date` (`config.py` lines
48-69) on string input: falsy (empty) input passes through; a
`DD.MM.YYYY` prefix is reordered to `YYYY-MM-DD`; a `YYYY-MM-DD` prefix
passes through; otherwise the two English month-name formats are tried;
otherwise the validation error is raised. -/
def normalizeInvoiceDate (s : PyStr) : Except DateError PyStr :=
  if s = [] then .ok s
  else
    match matchDDMMYYYY s with
    | some (d1, d2, m1, m2, y1, y2, y3, y4) =>
      .ok ([y1, y2, y3, y4, '-', m1, m2, '-', d1, d2])
    | none =>
      if matchYYYYMMDD s then .ok s
      else
        match strptimeMonthFmt monthsFull s with
        | some (y, m, d) => .ok (formatDate y m d)
        | none =>
          match strptimeMonthFmt monthsAbbr s with
          | some (y, m, d) => .ok (formatDate y m d)
          | none => .error .invalidFormat

/-- The spec's words for claim C4: a string exactly of the shape two
digits, dot, two digits, dot, four digits (a full-string match, unlike
`re.match`). -/
def specExactDDMMYYYY (s : PyStr) : Bool :=
  match s with
  | [d1, d2, p1, m1, m2, p2, y1, y2, y3, y4] =>
    decide (d1.isDigit ∧ d2.isDigit ∧ p1 = '.' ∧ m1.isDigit ∧ m2.isDigit ∧ p2 = '.' ∧
      y1.isDigit ∧ y2.isDigit ∧ y3.isDigit ∧ y4.isDigit)
  | _ => false

/-- The spec's words for claim C4: a string exactly of the shape
`YYYY-MM-DD` (a full-string match). -/
def specExactYYYYMMDD (s : PyStr) : Bool :=
  match s with
  | [y1, y2, y3, y4, p1, m1, m2, p2, d1, d2] =>
    decide (y1.isDigit ∧ y2.isDigit ∧ y3.isDigit ∧ y4.isDigit ∧ p1 = '-' ∧
      m1.isDigit ∧ m2.isDigit ∧ p2 = '-' ∧ d1.isDigit ∧ d2.isDigit)
  | _ => false

/-! ### JSON values and Python dictionaries -/

/-- A JSON value as produced by `json.loads`: `None`, `bool`, `int`,
`str`, `list`, or `dict` (JSON numbers are modelled as integers). -/
inductive JVal where
  | null
  | bool (b : Bool)
  | int (n : Int)
  | str (s : PyStr)
  | arr (xs : List JVal)
  | obj (kvs : List (String × JVal))

/-- Is the value Python `None`? -/
def isNull : JVal → Bool
  | .null => true
  | _ => false

/-- `isinstance(value, str)`. -/
def isStr : JVal → Bool
  | .str _ => true
  | _ => false

/-- Python truthiness of a JSON value. -/
def truthy : JVal → Bool
  | .null => false
  | .bool b => b
  | .int n => !(n == 0)
  | .str s => !s.isEmpty
  | .arr xs => !xs.isEmpty
  | .obj kvs => !kvs.isEmpty

/-- A Python `dict` with string keys: an insertion-ordered association
list whose keys are unique in any dictionary that `json.loads` yields. -/
abbrev Dict := List (String × JVal)

/-- `dict.__getitem__`-style lookup: the entry for `key`, if present. -/
def dget : Dict → String → Option JVal
  | [], _ => none
  | (k, v) :: t, key => if k = key then some v else dget t key

/-- `dict.get(key)`: the entry for `key`, or `None` when absent. -/
def getv (d : Dict) (k : String) : JVal := (dget d k).getD .null

/-- `dict.__setitem__`: replace the value at an existing key in place, or
append a new entry at the end. -/
def dset : Dict → String → JVal → Dict
  | [], key, v => [(key, v)]
  | (k, w) :: t, key, v => if k = key then (k, v) :: t else (k, w) :: dset t key v

/-- Decimal digits of a natural number, most significant first. -/
def natDigits (n : Nat) : PyStr :=
  if h : n < 10 then [Char.ofNat (48 + n)]
  else natDigits (n / 10) ++ [Char.ofNat (48 + n % 10)]
  decreasing_by exact Nat.div_lt_self (by omega) (by omega)

/-- Python `str()` of an `int`. -/
def intRepr (n : Int) : PyStr :=
  if n < 0 then '-' :: natDigits n.natAbs else natDigits n.toNat

/-- The single-quote character used by Python `repr` of strings. -/
def squote : Char := Char.ofNat 39

/-- Python `repr` of a string key (quoting without escape sequences; no
claim depends on the textual form). -/
def strRepr (k : String) : PyStr := squote :: (k.data ++ [squote])

mutual

/-- Python `repr` of a JSON value, which is what `str()` produces for
containers. -/
def pyRepr : JVal → PyStr
  | .null => pstr "None"
  | .bool true => pstr "True"
  | .bool false => pstr "False"
  | .int n => intRepr n
  | .str s => squote :: (s ++ [squote])
  | .arr xs => '[' :: (pyReprItems xs ++ [']'])
  | .obj kvs => lbrace :: (pyReprEntries kvs ++ [rbrace])

/-- Comma-separated `repr`s of list items. -/
def pyReprItems : List JVal → PyStr
  | [] => []
  | [x] => pyRepr x
  | x :: y :: t => pyRepr x ++ pstr ", " ++ pyReprItems (y :: t)

/-- Comma-separated `repr`s of dict entries. -/
def pyReprEntries : List (String × JVal) → PyStr
  | [] => []
  | [(k, v)] => strRepr k ++ pstr ": " ++ pyRepr v
  | (k, v) :: e :: t => strRepr k ++ pstr ": " ++ pyRepr v ++ pstr ", " ++ pyReprEntries (e :: t)

end

/-- Python `str()` of a JSON value (`str` returns itself; everything else
renders as `repr` does). -/
def pyStrOf : JVal → PyStr
  | .str s => s
  | v => pyRepr v

/-! ### openrouter._normalize_extracted_data -/

/-- Inner company fallback of `_normalize_extracted_data` (`openrouter.py`
lines 370-373): take `vendor_details["name"]` when `vendor_details` is a
dict with a truthy name. -/
def companyFromDetails (n : Dict) : Dict :=
  match getv n "vendor_details" with
  | .obj vd => if truthy (getv vd "name") then dset n "company" (getv vd "name") else n
  | _ => n

/-- Company fallback (`openrouter.py` lines 366-373): a non-blank string
`vendor_name` wins, stripped; otherwise try `vendor_details.name`. -/
def companyFallback (n : Dict) : Dict :=
  match getv n "vendor_name" with
  | .str vn =>
    if pyStrip vn = [] then companyFromDetails n
    else dset n "company" (.str (pyStrip vn))
  | _ => companyFromDetails n

/-- Lines 366-373: fill `company` from vendor aliases when falsy. -/
def companyStep (n : Dict) : Dict :=
  if truthy (getv n "company") then n else companyFallback n

/-- Product fallback (`openrouter.py` lines 376-380): the `description`
of the first element of a non-empty `line_items` array of objects. -/
def productFallback (n : Dict) : Dict :=
  match getv n "line_items" with
  | .arr (.obj fi :: _) =>
    if truthy (getv fi "description") then dset n "product" (getv fi "description") else n
  | _ => n

/-- Lines 375-380: fill `product` from line items when falsy. -/
def productStep (n : Dict) : Dict :=
  if truthy (getv n "product") then n else productFallback n

/-- Lines 382-386: stringify `total_amount` into a falsy `total_value`
when `total_amount` is present and not `None`. -/
def totalValueStep (n : Dict) : Dict :=
  if truthy (getv n "total_value") = false ∧ isNull (getv n "total_amount") = false then
    dset n "total_value" (.str (pyStrOf (getv n "total_amount")))
  else n

/-- Lines 388-392: stringify `tax_amount` into a falsy `taxes_paid`. -/
def taxesPaidStep (n : Dict) : Dict :=
  if truthy (getv n "taxes_paid") = false ∧ isNull (getv n "tax_amount") = false then
    dset n "taxes_paid" (.str (pyStrOf (getv n "tax_amount")))
  else n

/-- One turn of the loop at lines 394-397: force the value at `key` to a
string when present, not `None`, and not already a string. -/
def stringifyOne (n : Dict) (key : String) : Dict :=
  if isNull (getv n key) = false ∧ isStr (getv n key) = false then
    dset n key (.str (pyStrOf (getv n key)))
  else n

/-- Lines 394-397: the loop over `total_value` then `taxes_paid`. -/
def stringifyStep (n : Dict) : Dict :=
  stringifyOne (stringifyOne n "total_value") "taxes_paid"

/-- Lines 399-404: default a falsy `language` to `"de"` when the invoice
date is a string matching the DD.MM.YYYY pattern, else to `"en"`;
`normalized.get("invoice_date", "")` defaults the date to `""`. -/
def languageStep (n : Dict) : Dict :=
  if truthy (getv n "language") then n
  else
    match (dget n "invoice_date").getD (.str []) with
    | .str s =>
      if (matchDDMMYYYY s).isSome then dset n "language" (.str (pstr "de"))
      else dset n "language" (.str (pstr "en"))
    | _ => dset n "language" (.str (pstr "en"))

/-- Lines 406-408: canonicalize the Euro spellings to `"EUR"` when
`currency` is a string whose stripped form is in the fixed set. -/
def currencyStep (n : Dict) : Dict :=
  match getv n "currency" with
  | .str c =>
    if pyStrip c = pstr "€" ∨ pyStrip c = pstr "EURO" ∨ pyStrip c = pstr "Euro" then
      dset n "currency" (.str (pstr "EUR"))
    else n
  | _ => n

/-- `ALLOWED_SCHEMA_KEYS` (`openrouter.py` lines 21-30). -/
def ALLOWED_SCHEMA_KEYS : List String :=
  ["invoice_number", "invoice_date", "company", "product", "total_value",
   "currency", "taxes_paid", "language"]

/-- The provenance fields attached by the caller, never by the
normalizer (`config.py` lines 33-36). -/
def provenanceFields : List String :=
  ["file_id", "file_name", "file_url", "extraction_date"]

/-- Is `k` collected into `extra_fields` (not canonical, not
`extra_fields` itself)? -/
def isCollectedKey (k : String) : Bool :=
  !(ALLOWED_SCHEMA_KEYS.contains k || k = "extra_fields")

/-- The dict comprehension at lines 410-414: every top-level entry whose
key is outside `ALLOWED_SCHEMA_KEYS | {"extra_fields"}`. -/
def collectExtra (n : Dict) : Dict := n.filter fun kv => isCollectedKey kv.1

/-- Lines 410-414: store the collected entries under `extra_fields`. -/
def extraFieldsStep (n : Dict) : Dict :=
  dset n "extra_fields" (.obj (collectExtra n))

/-- Model of `_normalize_extracted_data` (`openrouter.py` lines 362-416):
the steps applied in source order to a copy of the input dict. -/
def normalizeExtractedData (d : Dict) : Dict :=
  extraFieldsStep (currencyStep (languageStep (stringifyStep (taxesPaidStep
    (totalValueStep (productStep (companyStep d)))))))

/-- The key set of the round-trip scenario: all eight canonical keys plus
the unknown key `foo`. -/
def c7keys : List String :=
  ["invoice_number", "invoice_date", "company", "product", "total_value",
   "currency", "taxes_paid", "language", "foo"]

/-! ### config.InvoiceExtract validation -/

/-- The validated invoice record (`config.py` lines 26-46), fields in
declaration order. -/
structure InvoiceExtract where
  file_id : Option PyStr
  file_name : Option PyStr
  file_url : Option PyStr
  extraction_date : Option PyStr
  invoice_number : PyStr
  invoice_date : PyStr
  language : PyStr
  company : PyStr
  product : PyStr
  total_value : PyStr
  currency : PyStr
  taxes_paid : PyStr
  extra_fields : Dict

/-- The names of the attributes an `InvoiceExtract` record exposes (the
pydantic model fields; unknown response keys are ignored by
`model_config.extra = "ignore"`). -/
def invoiceExtractFieldNames : List String :=
  ["file_id", "file_name", "file_url", "extraction_date", "invoice_number",
   "invoice_date", "language", "company", "product", "total_value",
   "currency", "taxes_paid", "extra_fields"]

/-- pydantic coercion to `str`: only actual strings are accepted. -/
def expectStr : JVal → Except Unit PyStr
  | .str s => .ok s
  | _ => .error ()

/-- Validation of an optional string field (`str | None = None`). -/
def vOptStr (d : Dict) (k : String) : Except Unit (Option PyStr) :=
  match dget d k with
  | none => .ok none
  | some .null => .ok none
  | some (.str s) => .ok (some s)
  | some _ => .error ()

/-- Model of `InvoiceExtract._require_non_unknown` (`config.py` lines
71-80): `None` fails; a string whose stripped, lower-cased form is
`"n/a"`, `"unknown"`, or `""` fails; anything else passes through. -/
def requireNonUnknown : JVal → Except Unit JVal
  | .null => .error ()
  | .str s =>
    if pyLower (pyStrip s) = pstr "n/a" ∨ pyLower (pyStrip s) = pstr "unknown" ∨
        pyLower (pyStrip s) = [] then .error ()
    else .ok (.str s)
  | v => .ok v

/-- The `mode="before"` date validator acting on a raw JSON value: falsy
values pass through unchanged; strings go through
`normalizeInvoiceDate`; a truthy non-string makes `re.match` raise, which
is modelled as a failure. -/
def normalizeDateBefore : JVal → Except Unit JVal
  | .str s =>
    match normalizeInvoiceDate s with
    | .ok t => .ok (.str t)
    | .error _ => .error ()
  | v => if truthy v then .error () else .ok v

/-- Validation of a required plain string field (`invoice_number`). -/
def vStrRequired (d : Dict) (k : String) : Except Unit PyStr :=
  match dget d k with
  | none => .error ()
  | some v => expectStr v

/-- Validation of `invoice_date`: required, date-normalized, then
string-typed. -/
def vInvoiceDate (d : Dict) : Except Unit PyStr :=
  match dget d "invoice_date" with
  | none => .error ()
  | some v =>
    match normalizeDateBefore v with
    | .ok w => expectStr w
    | .error e => .error e

/-- Validation of a required placeholder-checked field (`company`,
`product`, `total_value`, `currency`). -/
def vPlaceholderRequired (d : Dict) (k : String) : Except Unit PyStr :=
  match dget d k with
  | none => .error ()
  | some v =>
    match requireNonUnknown v with
    | .ok w => expectStr w
    | .error e => .error e

/-- Validation of `language`: placeholder-checked when present; when the
key is truly absent the default `"unknown"` applies and — as pydantic
does not validate defaults — the placeholder check is skipped. -/
def vLanguage (d : Dict) : Except Unit PyStr :=
  match dget d "language" with
  | none => .ok (pstr "unknown")
  | some v =>
    match requireNonUnknown v with
    | .ok w => expectStr w
    | .error e => .error e

/-- Validation of `taxes_paid`: defaults to `"N/A"` when absent, no
placeholder check. -/
def vTaxesPaid (d : Dict) : Except Unit PyStr :=
  match dget d "taxes_paid" with
  | none => .ok (pstr "N/A")
  | some v => expectStr v

/-- Validation of `extra_fields`: defaults to `{}`; a present value must
be a dict. -/
def vExtraFields (d : Dict) : Except Unit Dict :=
  match dget d "extra_fields" with
  | none => .ok []
  | some (.obj kvs) => .ok kvs
  | some _ => .error ()

/-- The field name contributed to the error list when a field check
fails. -/
def errOf {α : Type} (name : String) : Except Unit α → List String
  | .error _ => [name]
  | .ok _ => []

/-- The violated fields, in declaration order, as a pydantic
`ValidationError` lists them. -/
def errorFields (d : Dict) : List String :=
  errOf "file_id" (vOptStr d "file_id") ++
  errOf "file_name" (vOptStr d "file_name") ++
  errOf "file_url" (vOptStr d "file_url") ++
  errOf "extraction_date" (vOptStr d "extraction_date") ++
  errOf "invoice_number" (vStrRequired d "invoice_number") ++
  errOf "invoice_date" (vInvoiceDate d) ++
  errOf "language" (vLanguage d) ++
  errOf "company" (vPlaceholderRequired d "company") ++
  errOf "product" (vPlaceholderRequired d "product") ++
  errOf "total_value" (vPlaceholderRequired d "total_value") ++
  errOf "currency" (vPlaceholderRequired d "currency") ++
  errOf "taxes_paid" (vTaxesPaid d) ++
  errOf "extra_fields" (vExtraFields d)

/-- Model of `InvoiceExtract.model_validate`: every field is checked; on
any failure the violated fields are reported, otherwise the record is
built. -/
def validateInvoice (d : Dict) : Except (List String) InvoiceExtract :=
  match vOptStr d "file_id", vOptStr d "file_name", vOptStr d "file_url",
    vOptStr d "extraction_date", vStrRequired d "invoice_number", vInvoiceDate d,
    vLanguage d, vPlaceholderRequired d "company", vPlaceholderRequired d "product",
    vPlaceholderRequired d "total_value", vPlaceholderRequired d "currency",
    vTaxesPaid d, vExtraFields d with
  | .ok a1, .ok a2, .ok a3, .ok a4, .ok a5, .ok a6, .ok a7, .ok a8, .ok a9,
    .ok a10, .ok a11, .ok a12, .ok a13 =>
    .ok ⟨a1, a2, a3, a4, a5, a6, a7, a8, a9, a10, a11, a12, a13⟩
  | _, _, _, _, _, _, _, _, _, _, _, _, _ => .error (errorFields d)

/-! ### openrouter.extract_invoice_data completion check -/

/-- The parts of one parsed chat-completion choice that the completion
check reads. -/
structure ChatResponse where
  content : PyStr
  finish_reason : Option PyStr
  native_finish_reason : Option PyStr

/-- Model of `_extract_finish_reason` (`openrouter.py` lines 223-228):
`choices[0].get("finish_reason") or choices[0].get("native_finish_reason")`,
with Python's falsy-`or` (a present empty string falls through). -/
def extractFinishReason (r : ChatResponse) : Option PyStr :=
  match r.finish_reason with
  | some s => if s = [] then r.native_finish_reason else some s
  | none => r.native_finish_reason

/-- The token budget chosen at lines 148-150: 2000 for the
`openai/gpt-5` family, otherwise 1000. -/
def initialMaxTokens (model : PyStr) : Nat :=
  if (pstr "openai/gpt-5").isPrefixOf model then 2000 else 1000

/-- The budget adjustment at lines 176-178: only a `"length"` finish
reason doubles the budget (with a floor of 2000). -/
def bumpMaxTokens (mt : Nat) (fr : Option PyStr) : Nat :=
  if fr = some (pstr "length") then max (mt * 2) 2000 else mt

/-- Model of the completion check and single retry (`openrouter.py`
lines 174-188): given the first response and the response a second send
would produce, return the `max_tokens` of every request sent and the
content handed to the parse step.  The budget is adjusted before the
retry decision, exactly as in the source. -/
def extractionSends (mt0 : Nat) (r1 r2 : ChatResponse) : List Nat × PyStr :=
  if pyStrip r1.content = [] ∨ extractFinishReason r1 = some (pstr "length") then
    ([mt0, bumpMaxTokens mt0 (extractFinishReason r1)], r2.content)
  else ([mt0], r1.content)

/-! ### Stability invariants of the normalizer

Each step of `_normalize_extracted_data` establishes a condition on its
own output under which a second run of the same step changes nothing;
these predicates record those conditions. -/

/-- Both company fallbacks fail: no usable `vendor_name` string and no
`vendor_details` object with a truthy name. -/
def CompanyFallFails (n : Dict) : Prop :=
  (∀ vn, getv n "vendor_name" = JVal.str vn → pyStrip vn = []) ∧
  (∀ vd, getv n "vendor_details" = JVal.obj vd → truthy (getv vd "name") = false)

/-- The company step can change nothing: `company` is truthy or every
fallback fails. -/
def CompanyStable (n : Dict) : Prop :=
  truthy (getv n "company") = true ∨ CompanyFallFails n

/-- The product fallback fails: `line_items` is not a non-empty array
whose first element is an object with a truthy description. -/
def ProductFallFails (n : Dict) : Prop :=
  ∀ fi rest, getv n "line_items" = JVal.arr (JVal.obj fi :: rest) →
    truthy (getv fi "description") = false

/-- The product step can change nothing. -/
def ProductStable (n : Dict) : Prop :=
  truthy (getv n "product") = true ∨ ProductFallFails n

/-- The `total_value`-from-`total_amount` step can change nothing:
either the value is truthy, the alias is `None`/absent, or the value
already equals the stringified alias. -/
def TotalValueStable (n : Dict) : Prop :=
  truthy (getv n "total_value") = true ∨ isNull (getv n "total_amount") = true ∨
  getv n "total_value" = JVal.str (pyStrOf (getv n "total_amount"))

/-- The `taxes_paid`-from-`tax_amount` step can change nothing. -/
def TaxesStable (n : Dict) : Prop :=
  truthy (getv n "taxes_paid") = true ∨ isNull (getv n "tax_amount") = true ∨
  getv n "taxes_paid" = JVal.str (pyStrOf (getv n "tax_amount"))

/-- The stringification loop can change nothing at `k`: the value is
`None`/absent or already a string. -/
def StrOrNullAt (n : Dict) (k : String) : Prop :=
  isNull (getv n k) = true ∨ isStr (getv n k) = true

/-- The language step can change nothing: `language` is truthy. -/
def LanguageStable (n : Dict) : Prop := truthy (getv n "language") = true

/-- The currency step can change nothing: `currency` is not a string
whose stripped form is one of the Euro spellings. -/
def CurrencyStable (n : Dict) : Prop :=
  ∀ c, getv n "currency" = JVal.str c →
    ¬(pyStrip c = pstr "€" ∨ pyStrip c = pstr "EURO" ∨ pyStrip c = pstr "Euro")

/-! ## Theorems -/

/-! ### Dictionary helper lemmas -/

theorem dget_dset_self (d : Dict) (k : String) (v : JVal) :
    dget (dset d k v) k = some v := by
  induction d with
  | nil => simp [dset, dget]
  | cons kv t ih =>
    obtain ⟨a, w⟩ := kv
    by_cases h : a = k
    · simp [dset, dget, h]
    · simp [dset, dget, h, ih]

theorem dget_dset_ne (d : Dict) {k k' : String} (v : JVal) (h : k' ≠ k) :
    dget (dset d k v) k' = dget d k' := by
  induction d with
  | nil => simp [dset, dget, Ne.symm h]
  | cons kv t ih =>
    obtain ⟨a, w⟩ := kv
    by_cases ha : a = k
    · subst ha
      simp [dset, dget, Ne.symm h]
    · simp [dset, dget, ha, ih]

theorem dset_dget_eq {d : Dict} {k : String} {v : JVal} (h : dget d k = some v) :
    dset d k v = d := by
  induction d with
  | nil => simp [dget] at h
  | cons kv t ih =>
    obtain ⟨a, w⟩ := kv
    by_cases ha : a = k
    · rw [dget, if_pos ha] at h
      obtain rfl := Option.some.inj h
      simp [dset, ha]
    · rw [dget, if_neg ha] at h
      simp [dset, ha, ih h]

theorem dset_dset_self (d : Dict) (k : String) (v w : JVal) :
    dset (dset d k v) k w = dset d k w := by
  induction d with
  | nil => simp [dset]
  | cons kv t ih =>
    obtain ⟨a, u⟩ := kv
    by_cases ha : a = k
    · simp [dset, ha]
    · simp [dset, ha, ih]

theorem getv_dset_self (d : Dict) (k : String) (v : JVal) :
    getv (dset d k v) k = v := by
  simp [getv, dget_dset_self]

theorem getv_dset_ne (d : Dict) {k k' : String} (v : JVal) (h : k' ≠ k) :
    getv (dset d k v) k' = getv d k' := by
  simp [getv, dget_dset_ne _ _ h]

theorem collectExtra_dset_extra (n : Dict) (v : JVal) :
    collectExtra (dset n "extra_fields" v) = collectExtra n := by
  induction n with
  | nil => simp [dset, collectExtra, List.filter_cons, isCollectedKey]
  | cons kv t ih =>
    obtain ⟨a, w⟩ := kv
    by_cases h : a = "extra_fields"
    · subst h
      simp [dset, collectExtra, List.filter_cons, isCollectedKey]
    · have hd : dset ((a, w) :: t) "extra_fields" v = (a, w) :: dset t "extra_fields" v := by
        simp [dset, h]
      rw [hd]
      unfold collectExtra at ih ⊢
      rw [List.filter_cons, List.filter_cons, ih]

theorem dget_none_of_keys {d : Dict} {key : String}
    (h : ∀ k ∈ d.map Prod.fst, k ≠ key) : dget d key = none := by
  induction d with
  | nil => rfl
  | cons kv t ih =>
    obtain ⟨a, w⟩ := kv
    rw [dget, if_neg (h a (by simp))]
    exact ih fun k hk => h k (by simp [hk])

theorem dget_append_of_some {d e : Dict} {k : String} {v : JVal}
    (h : dget d k = some v) : dget (d ++ e) k = some v := by
  induction d with
  | nil => simp [dget] at h
  | cons kv t ih =>
    obtain ⟨a, w⟩ := kv
    by_cases ha : a = k
    · rw [dget, if_pos ha] at h
      simp [dget, ha, h]
    · rw [dget, if_neg ha] at h
      simp [dget, ha, ih h]

theorem dget_append_of_none {d e : Dict} {k : String}
    (h : dget d k = none) : dget (d ++ e) k = dget e k := by
  induction d with
  | nil => rfl
  | cons kv t ih =>
    obtain ⟨a, w⟩ := kv
    by_cases ha : a = k
    · rw [dget, if_pos ha] at h
      exact absurd h (by simp)
    · rw [dget, if_neg ha] at h
      simp [dget, ha, ih h]

theorem dset_append_of_none {d : Dict} {k : String} {v : JVal}
    (h : dget d k = none) : dset d k v = d ++ [(k, v)] := by
  induction d with
  | nil => rfl
  | cons kv t ih =>
    obtain ⟨a, w⟩ := kv
    by_cases ha : a = k
    · rw [dget, if_pos ha] at h
      exact absurd h (by simp)
    · rw [dget, if_neg ha] at h
      simp [dset, ha, ih h]

theorem map_fst_dset_of_some {d : Dict} {k : String} {w : JVal} (v : JVal)
    (h : dget d k = some w) : (dset d k v).map Prod.fst = d.map Prod.fst := by
  induction d with
  | nil => simp [dget] at h
  | cons kv t ih =>
    obtain ⟨a, u⟩ := kv
    by_cases ha : a = k
    · simp [dset, ha]
    · rw [dget, if_neg ha] at h
      simp [dset, ha, ih h]

theorem truthy_str {s : PyStr} (h : s ≠ []) : truthy (.str s) = true := by
  simp [truthy, h]

theorem req_ok_ne_nil {s : PyStr} {v : JVal}
    (h : requireNonUnknown (.str s) = .ok v) : s ≠ [] := by
  intro hnil
  subst hnil
  simp [requireNonUnknown, pyStrip, pyLower, lstrip, rstrip] at h

theorem isCollectedKey_false_of_allowed {k : String}
    (h : k ∈ ALLOWED_SCHEMA_KEYS) : isCollectedKey k = false := by
  simp only [ALLOWED_SCHEMA_KEYS, List.mem_cons, List.mem_singleton] at h
  rcases h with rfl | rfl | rfl | rfl | rfl | rfl | rfl | rfl | h
  · decide
  · decide
  · decide
  · decide
  · decide
  · decide
  · decide
  · decide
  · simp at h

theorem mem_allowed_of_c7keys {k : String} (h : k ∈ c7keys) (hne : k ≠ "foo") :
    k ∈ ALLOWED_SCHEMA_KEYS := by
  simp only [c7keys, List.mem_cons, List.mem_singleton] at h
  rcases h with rfl | rfl | rfl | rfl | rfl | rfl | rfl | rfl | rfl | h
  · decide
  · decide
  · decide
  · decide
  · decide
  · decide
  · decide
  · decide
  · exact absurd rfl hne
  · simp at h

theorem collectExtra_nil_of_allowed {d : Dict}
    (h : ∀ k ∈ d.map Prod.fst, k ∈ ALLOWED_SCHEMA_KEYS) : collectExtra d = [] := by
  induction d with
  | nil => rfl
  | cons kv t ih =>
    obtain ⟨a, w⟩ := kv
    unfold collectExtra at ih ⊢
    rw [List.filter_cons, if_neg (by simp [isCollectedKey_false_of_allowed (h a (by simp))])]
    exact ih fun k hk => h k (by simp [hk])

theorem collectExtra_single_foo {d : Dict} {v : JVal}
    (hkeys : ∀ k ∈ d.map Prod.fst, k ∈ c7keys)
    (hnodup : (d.map Prod.fst).Nodup)
    (hfoo : dget d "foo" = some v) : collectExtra d = [("foo", v)] := by
  induction d with
  | nil => simp [dget] at hfoo
  | cons kv t ih =>
    obtain ⟨a, w⟩ := kv
    by_cases ha : a = "foo"
    · subst ha
      rw [dget, if_pos rfl] at hfoo
      obtain rfl := Option.some.inj hfoo
      unfold collectExtra
      rw [List.filter_cons, if_pos (by show isCollectedKey "foo" = true; decide)]
      have hrest : collectExtra t = [] := by
        refine collectExtra_nil_of_allowed fun k hk => ?_
        refine mem_allowed_of_c7keys (hkeys k (by simp [hk])) ?_
        intro hkfoo
        subst hkfoo
        exact (List.nodup_cons.mp (by simpa using hnodup)).1 hk
      unfold collectExtra at hrest
      rw [hrest]
    · rw [dget, if_neg ha] at hfoo
      unfold collectExtra
      rw [List.filter_cons,
        if_neg (by
          simp [isCollectedKey_false_of_allowed
            (mem_allowed_of_c7keys (hkeys a (by simp)) ha)])]
      have := ih (fun k hk => hkeys k (by simp [hk]))
        ((List.nodup_cons.mp (by simpa using hnodup)).2) hfoo
      unfold collectExtra at this
      exact this

/-! ### Normalizer step lemmas -/

theorem natDigits_ne_nil (n : Nat) : natDigits n ≠ [] := by
  unfold natDigits
  split
  · simp
  · simp

theorem pyStrOf_ne_nil {v : JVal} (h : isStr v = false) : pyStrOf v ≠ [] := by
  cases v with
  | str s => simp [isStr] at h
  | null => simp [pyStrOf, pyRepr, pstr]
  | bool b => cases b <;> simp [pyStrOf, pyRepr, pstr]
  | int n =>
    simp only [pyStrOf, pyRepr, intRepr]
    split
    · simp
    · exact natDigits_ne_nil _
  | arr xs => simp [pyStrOf, pyRepr]
  | obj kvs => simp [pyStrOf, pyRepr]

theorem companyFromDetails_dget {n : Dict} {k : String} (h : k ≠ "company") :
    dget (companyFromDetails n) k = dget n k := by
  unfold companyFromDetails
  split
  · split
    · exact dget_dset_ne _ _ h
    · rfl
  · rfl

theorem companyStep_dget {n : Dict} {k : String} (h : k ≠ "company") :
    dget (companyStep n) k = dget n k := by
  unfold companyStep companyFallback
  split
  · rfl
  · split
    · split
      · exact companyFromDetails_dget h
      · exact dget_dset_ne _ _ h
    · exact companyFromDetails_dget h

theorem productStep_dget {n : Dict} {k : String} (h : k ≠ "product") :
    dget (productStep n) k = dget n k := by
  unfold productStep productFallback
  split
  · rfl
  · split
    · split
      · exact dget_dset_ne _ _ h
      · rfl
    · rfl

theorem totalValueStep_dget {n : Dict} {k : String} (h : k ≠ "total_value") :
    dget (totalValueStep n) k = dget n k := by
  unfold totalValueStep
  split
  · exact dget_dset_ne _ _ h
  · rfl

theorem taxesPaidStep_dget {n : Dict} {k : String} (h : k ≠ "taxes_paid") :
    dget (taxesPaidStep n) k = dget n k := by
  unfold taxesPaidStep
  split
  · exact dget_dset_ne _ _ h
  · rfl

theorem stringifyOne_dget {n : Dict} {key k : String} (h : k ≠ key) :
    dget (stringifyOne n key) k = dget n k := by
  unfold stringifyOne
  split
  · exact dget_dset_ne _ _ h
  · rfl

theorem stringifyStep_dget {n : Dict} {k : String} (h1 : k ≠ "total_value")
    (h2 : k ≠ "taxes_paid") : dget (stringifyStep n) k = dget n k := by
  unfold stringifyStep
  rw [stringifyOne_dget h2, stringifyOne_dget h1]

theorem languageStep_dget {n : Dict} {k : String} (h : k ≠ "language") :
    dget (languageStep n) k = dget n k := by
  unfold languageStep
  split
  · rfl
  · split
    · split
      · exact dget_dset_ne _ _ h
      · exact dget_dset_ne _ _ h
    · exact dget_dset_ne _ _ h

theorem currencyStep_dget {n : Dict} {k : String} (h : k ≠ "currency") :
    dget (currencyStep n) k = dget n k := by
  unfold currencyStep
  split
  · split
    · exact dget_dset_ne _ _ h
    · rfl
  · rfl

theorem extraFieldsStep_dget {n : Dict} {k : String} (h : k ≠ "extra_fields") :
    dget (extraFieldsStep n) k = dget n k := by
  unfold extraFieldsStep
  exact dget_dset_ne _ _ h

theorem companyFallback_of_fails {n : Dict} (h : CompanyFallFails n) :
    companyFallback n = n := by
  have hdet : companyFromDetails n = n := by
    unfold companyFromDetails
    split
    next vd heq => rw [if_neg (by simp [h.2 vd heq])]
    next => rfl
  unfold companyFallback
  split
  next vn heq => rw [if_pos (h.1 vn heq)]; exact hdet
  next => exact hdet

theorem companyStep_of_stable {n : Dict} (h : CompanyStable n) :
    companyStep n = n := by
  unfold companyStep
  rcases h with ht | hf
  · rw [if_pos ht]
  · split
    · rfl
    · exact companyFallback_of_fails hf

theorem companyFromDetails_stable {n : Dict}
    (hvn : ∀ vn, getv n "vendor_name" = JVal.str vn → pyStrip vn = []) :
    CompanyStable (companyFromDetails n) := by
  unfold companyFromDetails
  split
  next vd heq =>
    split
    next hname => exact Or.inl (by rw [getv_dset_self]; exact hname)
    next hname =>
      right
      refine ⟨hvn, fun vd' hvd' => ?_⟩
      rw [heq] at hvd'
      injection hvd' with h'
      subst h'
      simpa using hname
  next hne =>
    right
    refine ⟨hvn, fun vd' hvd' => absurd hvd' (hne vd')⟩

theorem companyFallback_stable {n : Dict} : CompanyStable (companyFallback n) := by
  unfold companyFallback
  split
  next vn heq =>
    split
    next hstrip =>
      refine companyFromDetails_stable fun vn' hvn' => ?_
      rw [heq] at hvn'
      injection hvn' with h'
      subst h'
      exact hstrip
    next hstrip =>
      exact Or.inl (by rw [getv_dset_self]; exact truthy_str hstrip)
  next hne =>
    exact companyFromDetails_stable fun vn' hvn' => absurd hvn' (hne vn')

theorem companyStep_stable {n : Dict} : CompanyStable (companyStep n) := by
  unfold companyStep
  split
  next ht => exact Or.inl ht
  next => exact companyFallback_stable

theorem companyStable_mono {m n : Dict}
    (e1 : dget m "company" = dget n "company")
    (e2 : dget m "vendor_name" = dget n "vendor_name")
    (e3 : dget m "vendor_details" = dget n "vendor_details")
    (h : CompanyStable n) : CompanyStable m := by
  unfold CompanyStable CompanyFallFails getv at h ⊢
  rw [e1, e2, e3]
  exact h

theorem productFallback_of_fails {n : Dict} (h : ProductFallFails n) :
    productFallback n = n := by
  unfold productFallback
  split
  next fi tail heq => rw [if_neg (by simp [h fi tail heq])]
  next => rfl

theorem productStep_of_stable {n : Dict} (h : ProductStable n) :
    productStep n = n := by
  unfold productStep
  rcases h with ht | hf
  · rw [if_pos ht]
  · split
    · rfl
    · exact productFallback_of_fails hf

theorem productFallback_stable {n : Dict} : ProductStable (productFallback n) := by
  unfold productFallback
  split
  next fi tail heq =>
    split
    next hdesc => exact Or.inl (by rw [getv_dset_self]; exact hdesc)
    next hdesc =>
      right
      intro fi' rest' heq'
      rw [heq] at heq'
      injection heq' with hlist
      injection hlist with hhead htail
      injection hhead with hfi
      subst hfi
      simpa using hdesc
  next hne =>
    right
    intro fi' rest' heq'
    exact absurd heq' (hne fi' rest')

theorem productStep_stable {n : Dict} : ProductStable (productStep n) := by
  unfold productStep
  split
  next ht => exact Or.inl ht
  next => exact productFallback_stable

theorem productStable_mono {m n : Dict}
    (e1 : dget m "product" = dget n "product")
    (e2 : dget m "line_items" = dget n "line_items")
    (h : ProductStable n) : ProductStable m := by
  unfold ProductStable ProductFallFails getv at h ⊢
  rw [e1, e2]
  exact h

theorem getv_eq_some_of_str {n : Dict} {k : String} {s : PyStr}
    (h : getv n k = JVal.str s) : dget n k = some (JVal.str s) := by
  unfold getv at h
  cases hd : dget n k with
  | none => rw [hd] at h; simp at h
  | some v => rw [hd] at h; simp at h; rw [h]

theorem totalValueStep_of_stable {n : Dict} (h : TotalValueStable n) :
    totalValueStep n = n := by
  unfold totalValueStep
  rcases h with ht | ha | he
  · rw [if_neg (by simp [ht])]
  · rw [if_neg (by simp [ha])]
  · split
    · exact dset_dget_eq (by rw [getv_eq_some_of_str he])
    · rfl

theorem totalValueStep_stable {n : Dict} : TotalValueStable (totalValueStep n) := by
  unfold totalValueStep
  split
  next hc =>
    right; right
    rw [getv_dset_self, getv_dset_ne _ _ (by decide)]
  next hc =>
    rw [Decidable.not_and_iff_or_not] at hc
    rcases hc with hc | hc
    · exact Or.inl (by simpa using hc)
    · exact Or.inr (Or.inl (by simpa using hc))

theorem totalValueStable_mono {m n : Dict}
    (e1 : dget m "total_value" = dget n "total_value")
    (e2 : dget m "total_amount" = dget n "total_amount")
    (h : TotalValueStable n) : TotalValueStable m := by
  unfold TotalValueStable getv at h ⊢
  rw [e1, e2]
  exact h

theorem taxesPaidStep_of_stable {n : Dict} (h : TaxesStable n) :
    taxesPaidStep n = n := by
  unfold taxesPaidStep
  rcases h with ht | ha | he
  · rw [if_neg (by simp [ht])]
  · rw [if_neg (by simp [ha])]
  · split
    · exact dset_dget_eq (by rw [getv_eq_some_of_str he])
    · rfl

theorem taxesPaidStep_stable {n : Dict} : TaxesStable (taxesPaidStep n) := by
  unfold taxesPaidStep
  split
  next hc =>
    right; right
    rw [getv_dset_self, getv_dset_ne _ _ (by decide)]
  next hc =>
    rw [Decidable.not_and_iff_or_not] at hc
    rcases hc with hc | hc
    · exact Or.inl (by simpa using hc)
    · exact Or.inr (Or.inl (by simpa using hc))

theorem taxesStable_mono {m n : Dict}
    (e1 : dget m "taxes_paid" = dget n "taxes_paid")
    (e2 : dget m "tax_amount" = dget n "tax_amount")
    (h : TaxesStable n) : TaxesStable m := by
  unfold TaxesStable getv at h ⊢
  rw [e1, e2]
  exact h

theorem stringifyOne_of_stable {n : Dict} {k : String} (h : StrOrNullAt n k) :
    stringifyOne n k = n := by
  unfold stringifyOne
  rcases h with hn | hs
  · rw [if_neg (by simp [hn])]
  · rw [if_neg (by simp [hs])]

theorem stringifyOne_stable {n : Dict} {k : String} :
    StrOrNullAt (stringifyOne n k) k := by
  unfold stringifyOne
  split
  next hc => exact Or.inr (by rw [getv_dset_self]; rfl)
  next hc =>
    rw [Decidable.not_and_iff_or_not] at hc
    rcases hc with hc | hc
    · exact Or.inl (by simpa using hc)
    · exact Or.inr (by simpa using hc)

theorem strOrNullAt_mono {m n : Dict} {k : String}
    (e : dget m k = dget n k) (h : StrOrNullAt n k) : StrOrNullAt m k := by
  unfold StrOrNullAt getv at h ⊢
  rw [e]
  exact h

/-- Stringifying `total_value` in place cannot disturb the stability of
the `total_value`-from-alias step: a written value is a non-empty string
(Python `str()` of a non-string is never empty). -/
theorem totalValueStable_stringifySame {n : Dict} (h : TotalValueStable n) :
    TotalValueStable (stringifyOne n "total_value") := by
  unfold stringifyOne
  split
  next hc =>
    left
    rw [getv_dset_self]
    exact truthy_str (pyStrOf_ne_nil hc.2)
  next hc => exact h

/-- The same argument for `taxes_paid`. -/
theorem taxesStable_stringifySame {n : Dict} (h : TaxesStable n) :
    TaxesStable (stringifyOne n "taxes_paid") := by
  unfold stringifyOne
  split
  next hc =>
    left
    rw [getv_dset_self]
    exact truthy_str (pyStrOf_ne_nil hc.2)
  next hc => exact h

theorem stringifyStep_of_stable {n : Dict} (h1 : StrOrNullAt n "total_value")
    (h2 : StrOrNullAt n "taxes_paid") : stringifyStep n = n := by
  unfold stringifyStep
  rw [stringifyOne_of_stable h1, stringifyOne_of_stable h2]

theorem stringifyStep_stable_tv {n : Dict} :
    StrOrNullAt (stringifyStep n) "total_value" := by
  unfold stringifyStep
  exact strOrNullAt_mono (stringifyOne_dget (by decide)) stringifyOne_stable

theorem stringifyStep_stable_tp {n : Dict} :
    StrOrNullAt (stringifyStep n) "taxes_paid" := by
  unfold stringifyStep
  exact stringifyOne_stable

theorem languageStep_of_stable {n : Dict} (h : LanguageStable n) :
    languageStep n = n := by
  unfold languageStep
  rw [if_pos (show truthy (getv n "language") = true from h)]

theorem languageStep_stable {n : Dict} : LanguageStable (languageStep n) := by
  unfold languageStep
  split
  next ht => exact ht
  next =>
    unfold LanguageStable
    split
    · split
      · rw [getv_dset_self]; decide
      · rw [getv_dset_self]; decide
    · rw [getv_dset_self]; decide

theorem languageStable_mono {m n : Dict}
    (e : dget m "language" = dget n "language") (h : LanguageStable n) :
    LanguageStable m := by
  unfold LanguageStable getv at h ⊢
  rw [e]
  exact h

theorem currencyStep_of_stable {n : Dict} (h : CurrencyStable n) :
    currencyStep n = n := by
  unfold currencyStep
  split
  next c heq => rw [if_neg (h c heq)]
  next => rfl

theorem currencyStep_stable {n : Dict} : CurrencyStable (currencyStep n) := by
  unfold currencyStep
  split
  next c heq =>
    split
    next hcond =>
      intro c' hc'
      rw [getv_dset_self] at hc'
      injection hc' with h'
      subst h'
      decide
    next hcond =>
      intro c' hc'
      rw [heq] at hc'
      injection hc' with h'
      subst h'
      exact hcond
  next hne =>
    intro c' hc'
    exact absurd hc' (hne c')

theorem currencyStable_mono {m n : Dict}
    (e : dget m "currency" = dget n "currency") (h : CurrencyStable n) :
    CurrencyStable m := by
  unfold CurrencyStable getv at h ⊢
  rw [e]
  exact h

theorem extraFieldsStep_idem {n : Dict} :
    extraFieldsStep (extraFieldsStep n) = extraFieldsStep n := by
  unfold extraFieldsStep
  rw [collectExtra_dset_extra, dset_dset_self]

/-! ### List and stripping helper lemmas -/

theorem eq_cons_of_head? {l : PyStr} {c : Char} (h : l.head? = some c) :
    ∃ t, l = c :: t := by
  cases l with
  | nil => simp at h
  | cons a t =>
    simp only [List.head?_cons, Option.some.injEq] at h
    exact ⟨t, by rw [h]⟩

theorem mem_of_getElem?' {l : PyStr} {i : Nat} {c : Char} (h : l[i]? = some c) :
    c ∈ l := by
  induction l generalizing i with
  | nil => simp at h
  | cons a t ih =>
    cases i with
    | zero =>
      simp only [List.getElem?_cons_zero, Option.some.injEq] at h
      simp [h]
    | succ n =>
      simp only [List.getElem?_cons_succ] at h
      exact List.mem_cons_of_mem _ (ih h)

theorem findIdx_lt_length {c : Char} {l : PyStr} (h : c ∈ l) :
    findIdx c l < l.length := by
  induction l with
  | nil => simp at h
  | cons a t ih =>
    by_cases hac : a = c
    · simp [findIdx, hac]
    · rcases List.mem_cons.mp h with h1 | h2
      · exact absurd h1.symm hac
      · simpa [findIdx, hac] using ih h2

theorem getElem?_findIdx {c : Char} {l : PyStr} (h : c ∈ l) :
    l[findIdx c l]? = some c := by
  induction l with
  | nil => simp at h
  | cons a t ih =>
    by_cases hac : a = c
    · simp [findIdx, hac]
    · rcases List.mem_cons.mp h with h1 | h2
      · exact absurd h1.symm hac
      · simpa [findIdx, hac] using ih h2

theorem rfindIdx_lt_length {c : Char} {l : PyStr} (h : c ∈ l) :
    rfindIdx c l < l.length := by
  have h0 : 0 < l.length := by
    cases l with
    | nil => simp at h
    | cons a t => simp
  unfold rfindIdx
  omega

theorem getElem?_rfindIdx {c : Char} {l : PyStr} (h : c ∈ l) :
    l[rfindIdx c l]? = some c := by
  have hr : c ∈ l.reverse := List.mem_reverse.mpr h
  have hj : findIdx c l.reverse < l.length := by
    have := findIdx_lt_length hr
    simpa using this
  have hg : l.reverse[findIdx c l.reverse]? = some c := getElem?_findIdx hr
  rw [List.getElem?_reverse hj] at hg
  exact hg

theorem rfindIdx_of_getLast? {c : Char} {l : PyStr} (h : l.getLast? = some c) :
    rfindIdx c l = l.length - 1 := by
  have hrev : l.reverse.head? = some c := by rw [List.head?_reverse]; exact h
  obtain ⟨t, ht⟩ := eq_cons_of_head? hrev
  unfold rfindIdx
  rw [ht]
  simp [findIdx]

theorem dropWhile_head?_not {p : Char → Bool} {l : PyStr} {c : Char}
    (h : (l.dropWhile p).head? = some c) : p c = false := by
  induction l with
  | nil => simp at h
  | cons a t ih =>
    rw [List.dropWhile_cons] at h
    by_cases hp : p a = true
    · rw [if_pos hp] at h; exact ih h
    · rw [if_neg hp] at h
      simp only [List.head?_cons, Option.some.injEq] at h
      rw [← h]
      simpa using hp

theorem dropWhile_eq_self_of_head? {p : Char → Bool} {l : PyStr}
    (h : ∀ c, l.head? = some c → p c = false) : l.dropWhile p = l := by
  cases l with
  | nil => rfl
  | cons a t =>
    rw [List.dropWhile_cons, if_neg]
    simp [h a rfl]

theorem lstrip_eq_self {l : PyStr}
    (h : ∀ c, l.head? = some c → isPySpace c = false) : lstrip l = l :=
  dropWhile_eq_self_of_head? h

theorem rstrip_eq_self {l : PyStr}
    (h : ∀ c, l.getLast? = some c → isPySpace c = false) : rstrip l = l := by
  have hd : l.reverse.dropWhile isPySpace = l.reverse :=
    dropWhile_eq_self_of_head? fun c hc =>
      h c (by rw [List.head?_reverse] at hc; exact hc)
  unfold rstrip
  rw [hd, List.reverse_reverse]

theorem pyStrip_eq_self {l : PyStr}
    (hL : ∀ c, l.head? = some c → isPySpace c = false)
    (hR : ∀ c, l.getLast? = some c → isPySpace c = false) : pyStrip l = l := by
  unfold pyStrip
  rw [lstrip_eq_self hL, rstrip_eq_self hR]

theorem rstrip_isPre (u : PyStr) : rstrip u <+: u := by
  have h1 : u.reverse.dropWhile isPySpace <:+ u.reverse := List.dropWhile_suffix _
  have h2 : ((u.reverse.dropWhile isPySpace).reverse).reverse <:+ u.reverse := by
    simpa using h1
  exact List.reverse_suffix.mp h2

theorem head?_of_isPre {u v : PyStr} {c : Char} (h : u <+: v)
    (hc : u.head? = some c) : v.head? = some c := by
  obtain ⟨t, ht⟩ := eq_cons_of_head? hc
  obtain ⟨w, hw⟩ := h
  rw [← hw, ht]
  rfl

theorem head?_pyStrip_not_space {l : PyStr} {c : Char}
    (h : (pyStrip l).head? = some c) : isPySpace c = false := by
  have hpre : rstrip (lstrip l) <+: lstrip l := rstrip_isPre _
  have : (lstrip l).head? = some c := head?_of_isPre hpre h
  exact dropWhile_head?_not this

theorem getLast?_pyStrip_not_space {l : PyStr} {c : Char}
    (h : (pyStrip l).getLast? = some c) : isPySpace c = false := by
  have hrev : (pyStrip l).reverse.head? = some c := by
    rw [List.head?_reverse]; exact h
  have : ((lstrip l).reverse.dropWhile isPySpace).head? = some c := by
    have heq : (pyStrip l).reverse = (lstrip l).reverse.dropWhile isPySpace := by
      unfold pyStrip rstrip
      rw [List.reverse_reverse]
    rw [heq] at hrev
    exact hrev
  exact dropWhile_head?_not this

theorem pyStrip_idem (l : PyStr) : pyStrip (pyStrip l) = pyStrip l :=
  pyStrip_eq_self (fun _ h => head?_pyStrip_not_space h)
    (fun _ h => getLast?_pyStrip_not_space h)

theorem pyStrip_strip_code_fences (x : PyStr) :
    pyStrip (strip_code_fences x) = strip_code_fences x := by
  unfold strip_code_fences
  by_cases hx : x = []
  · rw [if_pos hx, hx]
    rfl
  · rw [if_neg hx]
    exact pyStrip_idem _

theorem strip_code_fences_of_ne_nil {y : PyStr} (h : y ≠ []) :
    strip_code_fences y = pyStrip (braceStep (pyStrip (fenceStep (pyStrip y)))) := by
  unfold strip_code_fences
  rw [if_neg h]

theorem braceExtract_fixed {s : PyStr} {a b : Nat} (hab : a < b) (hb : b < s.length)
    (hga : s[a]? = some lbrace) (hgb : s[b]? = some rbrace) :
    pyStrip ((s.drop a).take (b + 1 - a)) = (s.drop a).take (b + 1 - a) ∧
    braceStep ((s.drop a).take (b + 1 - a)) = (s.drop a).take (b + 1 - a) := by
  have hlen : ((s.drop a).take (b + 1 - a)).length = b + 1 - a := by
    rw [List.length_take, List.length_drop]
    omega
  have hhead : ((s.drop a).take (b + 1 - a)).head? = some lbrace := by
    rw [List.head?_take, if_neg (by omega), List.head?_drop]
    exact hga
  have hlast : ((s.drop a).take (b + 1 - a)).getLast? = some rbrace := by
    rw [List.getLast?_eq_getElem?, hlen, List.getElem?_take, if_pos (by omega),
      List.getElem?_drop]
    have hidx : a + (b + 1 - a - 1) = b := by omega
    rw [hidx]
    exact hgb
  have hstrip : pyStrip ((s.drop a).take (b + 1 - a)) = (s.drop a).take (b + 1 - a) :=
    pyStrip_eq_self
      (fun c h => by
        rw [hhead] at h
        rw [← Option.some.inj h]
        decide)
      (fun c h => by
        rw [hlast] at h
        rw [← Option.some.inj h]
        decide)
  refine ⟨hstrip, ?_⟩
  have hmem1 : lbrace ∈ (s.drop a).take (b + 1 - a) :=
    List.mem_of_mem_head? (by rw [Option.mem_def]; exact hhead)
  have hmem2 : rbrace ∈ (s.drop a).take (b + 1 - a) :=
    mem_of_getElem?' (by rw [← List.getLast?_eq_getElem?]; exact hlast)
  obtain ⟨t, ht⟩ := eq_cons_of_head? hhead
  have hfi : findIdx lbrace ((s.drop a).take (b + 1 - a)) = 0 := by
    rw [ht]; simp [findIdx]
  have hri : rfindIdx rbrace ((s.drop a).take (b + 1 - a)) =
      ((s.drop a).take (b + 1 - a)).length - 1 := rfindIdx_of_getLast? hlast
  unfold braceStep
  rw [if_pos ⟨hmem1, hmem2⟩, if_pos (by rw [hfi, hri, hlen]; omega), hfi, hri,
    List.drop_zero]
  have hfull : ((s.drop a).take (b + 1 - a)).length - 1 + 1 - 0 =
      ((s.drop a).take (b + 1 - a)).length := by
    rw [hlen]; omega
  rw [hfull, List.take_length]

theorem braceStep_strip_stable {s : PyStr} (hs : pyStrip s = s) :
    pyStrip (braceStep (pyStrip (braceStep s))) = pyStrip (braceStep s) := by
  by_cases hc : lbrace ∈ s ∧ rbrace ∈ s
  · by_cases hlt : findIdx lbrace s < rfindIdx rbrace s
    · have hbs : braceStep s =
          (s.drop (findIdx lbrace s)).take (rfindIdx rbrace s + 1 - findIdx lbrace s) := by
        unfold braceStep
        rw [if_pos hc, if_pos hlt]
      obtain ⟨hstrip, hfix⟩ := braceExtract_fixed hlt (rfindIdx_lt_length hc.2)
        (getElem?_findIdx hc.1) (getElem?_rfindIdx hc.2)
      rw [hbs, hstrip, hfix]
      exact hstrip
    · have hbs : braceStep s = s := by
        unfold braceStep
        rw [if_pos hc, if_neg hlt]
      rw [hbs, hs, hbs, hs]
  · have hbs : braceStep s = s := by
      unfold braceStep
      rw [if_neg hc]
    rw [hbs, hs, hbs, hs]

/-- C5 (amended): the content sanitizer is idempotent on every input
whose sanitized result does not itself begin with a triple-backtick
fence: for every such x, `sanitize (sanitize x) = sanitize x`.  (When the
first pass's result still begins with a fence — possible when the input
holds several fence markers and no brace pair — the second pass strips
the fence again, so full idempotence fails.) -/
theorem C5_sanitize_idem_no_fence (x : PyStr)
    (h : (pstr "```").isPrefixOf (strip_code_fences x) = false) :
    strip_code_fences (strip_code_fences x) = strip_code_fences x := by
  by_cases hx : x = []
  · rw [hx]
    rfl
  · by_cases hynil : strip_code_fences x = []
    · rw [hynil]
      rfl
    · have hy : pyStrip (strip_code_fences x) = strip_code_fences x :=
        pyStrip_strip_code_fences x
      have hf : fenceStep (strip_code_fences x) = strip_code_fences x := by
        unfold fenceStep
        rw [if_neg (by simp [h])]
      rw [strip_code_fences_of_ne_nil hynil, hy, hf, hy,
        strip_code_fences_of_ne_nil hx]
      exact braceStep_strip_stable (pyStrip_idem _)

/-- Witness for C5 (amended) at `" hi "`, whose sanitized form `"hi"`
carries no fence. -/
theorem C5_sanitize_idem_no_fence_witness :
    strip_code_fences (strip_code_fences (pstr " hi ")) =
      strip_code_fences (pstr " hi ") :=
  C5_sanitize_idem_no_fence (pstr " hi ") (by decide)

/-- Counterexample to C5 as stated: on `"``` ```hello"` the first pass
yields `"```hello"` and the second pass strips the remaining fence to
`"hello"`, so the sanitizer is not idempotent. -/
theorem C5_counterexample :
    strip_code_fences (strip_code_fences (pstr "``` ```hello")) ≠
      strip_code_fences (pstr "``` ```hello") := by
  decide

/-- C6: if the `language` key is entirely absent from the mapping given
to the validator and every other field check passes, validation succeeds
and the resulting record's `language` is the string `"unknown"`; a truly
absent `language` is not a validation failure (pydantic does not run the
placeholder validator on the applied default). -/
theorem C6_absent_language_defaults (d : Dict) (fid fn fu ed : Option PyStr)
    (inum idate comp prod tval curr taxes : PyStr) (extra : Dict)
    (hlang : dget d "language" = none)
    (h1 : vOptStr d "file_id" = .ok fid) (h2 : vOptStr d "file_name" = .ok fn)
    (h3 : vOptStr d "file_url" = .ok fu) (h4 : vOptStr d "extraction_date" = .ok ed)
    (h5 : vStrRequired d "invoice_number" = .ok inum)
    (h6 : vInvoiceDate d = .ok idate)
    (h7 : vPlaceholderRequired d "company" = .ok comp)
    (h8 : vPlaceholderRequired d "product" = .ok prod)
    (h9 : vPlaceholderRequired d "total_value" = .ok tval)
    (h10 : vPlaceholderRequired d "currency" = .ok curr)
    (h11 : vTaxesPaid d = .ok taxes) (h12 : vExtraFields d = .ok extra) :
    ∃ r, validateInvoice d = .ok r ∧ r.language = pstr "unknown" := by
  have hl : vLanguage d = .ok (pstr "unknown") := by
    unfold vLanguage
    rw [hlang]
  refine ⟨⟨fid, fn, fu, ed, inum, idate, pstr "unknown", comp, prod, tval, curr,
    taxes, extra⟩, ?_, rfl⟩
  unfold validateInvoice
  rw [h1, h2, h3, h4, h5, h6, hl, h7, h8, h9, h10, h11, h12]

/-- Witness for C6 at a mapping with all required fields valid and no
`language` key. -/
theorem C6_absent_language_defaults_witness :
    ∃ r,
      validateInvoice
        [("invoice_number", .str (pstr "INV-1")),
         ("invoice_date", .str (pstr "2024-03-15")),
         ("company", .str (pstr "ACME")),
         ("product", .str (pstr "Widget")),
         ("total_value", .str (pstr "10")),
         ("currency", .str (pstr "EUR"))] = .ok r ∧
      r.language = pstr "unknown" :=
  C6_absent_language_defaults _ none none none none
    (pstr "INV-1") (pstr "2024-03-15") (pstr "ACME") (pstr "Widget")
    (pstr "10") (pstr "EUR") (pstr "N/A") []
    rfl rfl rfl rfl rfl rfl rfl rfl rfl rfl rfl rfl rfl

/-- C7: for every raw mapping whose keys are exactly the eight canonical
keys plus `foo`, holding valid string values for the canonical keys and
`1` for `foo`, normalization followed by validation succeeds, the
resulting record's `extra_fields` equals `{"foo": 1}`, and the record
type exposes no top-level `foo` attribute. -/
theorem C7_roundtrip_extra_fields
    (d : Dict) (inum idate idate2 comp prod tval curr taxes lang : PyStr)
    (hkeys : ∀ k ∈ d.map Prod.fst, k ∈ c7keys)
    (hnodup : (d.map Prod.fst).Nodup)
    (hgin : dget d "invoice_number" = some (.str inum))
    (hgid : dget d "invoice_date" = some (.str idate))
    (hgco : dget d "company" = some (.str comp))
    (hgpr : dget d "product" = some (.str prod))
    (hgtv : dget d "total_value" = some (.str tval))
    (hgcu : dget d "currency" = some (.str curr))
    (hgtp : dget d "taxes_paid" = some (.str taxes))
    (hglg : dget d "language" = some (.str lang))
    (hgfoo : dget d "foo" = some (.int 1))
    (hdate : normalizeInvoiceDate idate = .ok idate2)
    (hcomp : requireNonUnknown (.str comp) = .ok (.str comp))
    (hprod : requireNonUnknown (.str prod) = .ok (.str prod))
    (htval : requireNonUnknown (.str tval) = .ok (.str tval))
    (hcurr : requireNonUnknown (.str curr) = .ok (.str curr))
    (hlang : requireNonUnknown (.str lang) = .ok (.str lang)) :
    ∃ r, validateInvoice (normalizeExtractedData d) = .ok r ∧
      r.extra_fields = [("foo", JVal.int 1)] ∧
      "foo" ∉ invoiceExtractFieldNames := by
  have habs : ∀ key, key ∉ c7keys → dget d key = none := by
    intro key hk
    refine dget_none_of_keys fun a ha heq => hk ?_
    rw [← heq]
    exact hkeys a ha
  have h_ta : dget d "tax_amount" = none := habs _ (by decide)
  have h_ef : dget d "extra_fields" = none := habs _ (by decide)
  have h_fid : dget d "file_id" = none := habs _ (by decide)
  have h_fn : dget d "file_name" = none := habs _ (by decide)
  have h_fu : dget d "file_url" = none := habs _ (by decide)
  have h_ed : dget d "extraction_date" = none := habs _ (by decide)
  have hnec : comp ≠ [] := req_ok_ne_nil hcomp
  have hnep : prod ≠ [] := req_ok_ne_nil hprod
  have hnet : tval ≠ [] := req_ok_ne_nil htval
  have hnel : lang ≠ [] := req_ok_ne_nil hlang
  have e1 : companyStep d = d := by
    unfold companyStep
    simp [getv, hgco, truthy_str hnec]
  have e2 : productStep d = d := by
    unfold productStep
    simp [getv, hgpr, truthy_str hnep]
  have e3 : totalValueStep d = d := by
    unfold totalValueStep
    simp [getv, hgtv, truthy_str hnet]
  have e4 : taxesPaidStep d = d := by
    unfold taxesPaidStep
    simp [getv, h_ta, isNull]
  have e5 : stringifyStep d = d := by
    unfold stringifyStep stringifyOne
    simp [getv, hgtv, hgtp, isStr]
  have e6 : languageStep d = d := by
    unfold languageStep
    simp [getv, hglg, truthy_str hnel]
  obtain ⟨n2, vcurr, hstep, hcurval, hcurok, hother, hkeyeq⟩ :
      ∃ n2 vcurr, currencyStep d = n2 ∧
        dget n2 "currency" = some (.str vcurr) ∧
        requireNonUnknown (.str vcurr) = .ok (.str vcurr) ∧
        (∀ k, k ≠ "currency" → dget n2 k = dget d k) ∧
        n2.map Prod.fst = d.map Prod.fst := by
    by_cases hcu : pyStrip curr = pstr "€" ∨ pyStrip curr = pstr "EURO" ∨
        pyStrip curr = pstr "Euro"
    · refine ⟨dset d "currency" (.str (pstr "EUR")), pstr "EUR", ?_,
        dget_dset_self _ _ _, rfl, fun k hk => dget_dset_ne _ _ hk,
        map_fst_dset_of_some _ hgcu⟩
      unfold currencyStep
      simp only [getv, hgcu, Option.getD_some]
      rw [if_pos hcu]
    · refine ⟨d, curr, ?_, hgcu, hcurr, fun k _ => rfl, rfl⟩
      unfold currencyStep
      simp only [getv, hgcu, Option.getD_some]
      rw [if_neg hcu]
  have hcoll : collectExtra n2 = [("foo", JVal.int 1)] := by
    refine collectExtra_single_foo ?_ ?_ ?_
    · rw [hkeyeq]; exact hkeys
    · rw [hkeyeq]; exact hnodup
    · rw [hother _ (by decide)]; exact hgfoo
  have hnorm : normalizeExtractedData d =
      n2 ++ [("extra_fields", JVal.obj [("foo", JVal.int 1)])] := by
    unfold normalizeExtractedData extraFieldsStep
    rw [e1, e2, e3, e4, e5, e6, hstep, hcoll]
    exact dset_append_of_none (by rw [hother _ (by decide)]; exact h_ef)
  have hd_fid : dget (normalizeExtractedData d) "file_id" = none := by
    rw [hnorm, dget_append_of_none (by rw [hother _ (by decide)]; exact h_fid)]
    rfl
  have hd_fn : dget (normalizeExtractedData d) "file_name" = none := by
    rw [hnorm, dget_append_of_none (by rw [hother _ (by decide)]; exact h_fn)]
    rfl
  have hd_fu : dget (normalizeExtractedData d) "file_url" = none := by
    rw [hnorm, dget_append_of_none (by rw [hother _ (by decide)]; exact h_fu)]
    rfl
  have hd_ed : dget (normalizeExtractedData d) "extraction_date" = none := by
    rw [hnorm, dget_append_of_none (by rw [hother _ (by decide)]; exact h_ed)]
    rfl
  have hd_in : dget (normalizeExtractedData d) "invoice_number" = some (.str inum) := by
    rw [hnorm]
    exact dget_append_of_some (by rw [hother _ (by decide)]; exact hgin)
  have hd_id : dget (normalizeExtractedData d) "invoice_date" = some (.str idate) := by
    rw [hnorm]
    exact dget_append_of_some (by rw [hother _ (by decide)]; exact hgid)
  have hd_lg : dget (normalizeExtractedData d) "language" = some (.str lang) := by
    rw [hnorm]
    exact dget_append_of_some (by rw [hother _ (by decide)]; exact hglg)
  have hd_co : dget (normalizeExtractedData d) "company" = some (.str comp) := by
    rw [hnorm]
    exact dget_append_of_some (by rw [hother _ (by decide)]; exact hgco)
  have hd_pr : dget (normalizeExtractedData d) "product" = some (.str prod) := by
    rw [hnorm]
    exact dget_append_of_some (by rw [hother _ (by decide)]; exact hgpr)
  have hd_tv : dget (normalizeExtractedData d) "total_value" = some (.str tval) := by
    rw [hnorm]
    exact dget_append_of_some (by rw [hother _ (by decide)]; exact hgtv)
  have hd_cu : dget (normalizeExtractedData d) "currency" = some (.str vcurr) := by
    rw [hnorm]
    exact dget_append_of_some hcurval
  have hd_tp : dget (normalizeExtractedData d) "taxes_paid" = some (.str taxes) := by
    rw [hnorm]
    exact dget_append_of_some (by rw [hother _ (by decide)]; exact hgtp)
  have hd_ex : dget (normalizeExtractedData d) "extra_fields" =
      some (JVal.obj [("foo", JVal.int 1)]) := by
    rw [hnorm, dget_append_of_none (by rw [hother _ (by decide)]; exact h_ef)]
    rfl
  have hv1 : vOptStr (normalizeExtractedData d) "file_id" = .ok none := by
    simp [vOptStr, hd_fid]
  have hv2 : vOptStr (normalizeExtractedData d) "file_name" = .ok none := by
    simp [vOptStr, hd_fn]
  have hv3 : vOptStr (normalizeExtractedData d) "file_url" = .ok none := by
    simp [vOptStr, hd_fu]
  have hv4 : vOptStr (normalizeExtractedData d) "extraction_date" = .ok none := by
    simp [vOptStr, hd_ed]
  have hv5 : vStrRequired (normalizeExtractedData d) "invoice_number" = .ok inum := by
    simp [vStrRequired, hd_in, expectStr]
  have hv6 : vInvoiceDate (normalizeExtractedData d) = .ok idate2 := by
    simp [vInvoiceDate, hd_id, normalizeDateBefore, hdate, expectStr]
  have hv7 : vLanguage (normalizeExtractedData d) = .ok lang := by
    simp [vLanguage, hd_lg, hlang, expectStr]
  have hv8 : vPlaceholderRequired (normalizeExtractedData d) "company" = .ok comp := by
    simp [vPlaceholderRequired, hd_co, hcomp, expectStr]
  have hv9 : vPlaceholderRequired (normalizeExtractedData d) "product" = .ok prod := by
    simp [vPlaceholderRequired, hd_pr, hprod, expectStr]
  have hv10 : vPlaceholderRequired (normalizeExtractedData d) "total_value" = .ok tval := by
    simp [vPlaceholderRequired, hd_tv, htval, expectStr]
  have hv11 : vPlaceholderRequired (normalizeExtractedData d) "currency" = .ok vcurr := by
    simp [vPlaceholderRequired, hd_cu, hcurok, expectStr]
  have hv12 : vTaxesPaid (normalizeExtractedData d) = .ok taxes := by
    simp [vTaxesPaid, hd_tp, expectStr]
  have hv13 : vExtraFields (normalizeExtractedData d) = .ok [("foo", JVal.int 1)] := by
    simp [vExtraFields, hd_ex]
  refine ⟨⟨none, none, none, none, inum, idate2, lang, comp, prod, tval, vcurr,
    taxes, [("foo", JVal.int 1)]⟩, ?_, rfl, by decide⟩
  unfold validateInvoice
  rw [hv1, hv2, hv3, hv4, hv5, hv6, hv7, hv8, hv9, hv10, hv11, hv12, hv13]

/-- Witness for C7 at a concrete nine-key mapping. -/
theorem C7_roundtrip_extra_fields_witness :
    ∃ r,
      validateInvoice (normalizeExtractedData
        [("invoice_number", .str (pstr "INV-1")),
         ("invoice_date", .str (pstr "2024-03-15")),
         ("company", .str (pstr "ACME")),
         ("product", .str (pstr "Widget")),
         ("total_value", .str (pstr "10")),
         ("currency", .str (pstr "EUR")),
         ("taxes_paid", .str (pstr "1.90")),
         ("language", .str (pstr "en")),
         ("foo", .int 1)]) = .ok r ∧
      r.extra_fields = [("foo", JVal.int 1)] ∧
      "foo" ∉ invoiceExtractFieldNames :=
  C7_roundtrip_extra_fields _ (pstr "INV-1") (pstr "2024-03-15") (pstr "2024-03-15")
    (pstr "ACME") (pstr "Widget") (pstr "10") (pstr "EUR") (pstr "1.90") (pstr "en")
    (by decide) (by decide)
    rfl rfl rfl rfl rfl rfl rfl rfl rfl rfl rfl rfl rfl rfl rfl

/-- C8: for every string of exactly the form DD.MM.YYYY (two digits, dot,
two digits, dot, four digits, all digits arbitrary), `normalizeInvoiceDate`
returns the string YYYY-MM-DD built by reordering the same digit groups. -/
theorem C8_ddmmyyyy_reordered (d1 d2 m1 m2 y1 y2 y3 y4 : Char)
    (hd1 : d1.isDigit) (hd2 : d2.isDigit) (hm1 : m1.isDigit) (hm2 : m2.isDigit)
    (hy1 : y1.isDigit) (hy2 : y2.isDigit) (hy3 : y3.isDigit) (hy4 : y4.isDigit) :
    normalizeInvoiceDate [d1, d2, '.', m1, m2, '.', y1, y2, y3, y4] =
      .ok [y1, y2, y3, y4, '-', m1, m2, '-', d1, d2] := by
  simp [normalizeInvoiceDate, matchDDMMYYYY, hd1, hd2, hm1, hm2, hy1, hy2, hy3, hy4]

/-- Witness for C8 at the spec's example: `"06.01.2026"` yields
`"2026-01-06"`. -/
theorem C8_ddmmyyyy_reordered_witness :
    normalizeInvoiceDate (pstr "06.01.2026") = .ok (pstr "2026-01-06") :=
  C8_ddmmyyyy_reordered '0' '6' '0' '1' '2' '0' '2' '6'
    (by decide) (by decide) (by decide) (by decide)
    (by decide) (by decide) (by decide) (by decide)

/-- C4 (amended): for every non-empty date string whose head does not
match the `DD.MM.YYYY` pattern, whose head does not match the
`YYYY-MM-DD` pattern — `re.match` anchors only at the start, so these are
prefix matches, not exact-shape matches — and which is not parseable by
the long or short English month-name formats, date normalization fails
with the invalid-format error rather than returning a value. -/
theorem C4_unmatched_date_fails (s : PyStr) (h0 : s ≠ [])
    (h1 : matchDDMMYYYY s = none) (h2 : matchYYYYMMDD s = false)
    (h3 : strptimeMonthFmt monthsFull s = none)
    (h4 : strptimeMonthFmt monthsAbbr s = none) :
    normalizeInvoiceDate s = .error .invalidFormat := by
  simp [normalizeInvoiceDate, h0, h1, h2, h3, h4]

/-- Witness for C4 (amended) at `"garbage"`. -/
theorem C4_unmatched_date_fails_witness :
    normalizeInvoiceDate (pstr "garbage") = .error .invalidFormat :=
  C4_unmatched_date_fails (pstr "garbage") (by decide) rfl rfl rfl rfl

/-- Counterexample to C4 as stated: `"01.02.2026X"` is non-empty, is not
exactly of the shape DD.MM.YYYY, is not exactly of the shape YYYY-MM-DD,
and is not parseable by either month-name format, yet normalization
returns `"2026-02-01"` instead of failing, because `re.match` accepts the
ten-character head and ignores the trailing `X`. -/
theorem C4_counterexample :
    pstr "01.02.2026X" ≠ [] ∧
    specExactDDMMYYYY (pstr "01.02.2026X") = false ∧
    specExactYYYYMMDD (pstr "01.02.2026X") = false ∧
    strptimeMonthFmt monthsFull (pstr "01.02.2026X") = none ∧
    strptimeMonthFmt monthsAbbr (pstr "01.02.2026X") = none ∧
    normalizeInvoiceDate (pstr "01.02.2026X") = .ok (pstr "2026-02-01") := by
  refine ⟨by decide, by decide, by decide, rfl, rfl, rfl⟩

/-- C1 (amended): for every first response whose content is empty or
whitespace-only, or whose finish reason is `"length"`, the orchestrator
performs exactly one additional send before parsing, and parsing uses the
second response's content; but the retried request carries the increased
budget `max(2 * previous, 2000)` only when the finish reason is
`"length"` — an empty-content retry with a different finish reason
reuses the previous budget unchanged. -/
theorem C1_single_retry_budget (mt0 : Nat) (r1 r2 : ChatResponse)
    (h : pyStrip r1.content = [] ∨ extractFinishReason r1 = some (pstr "length")) :
    (extractionSends mt0 r1 r2).1 =
      [mt0, if extractFinishReason r1 = some (pstr "length")
        then max (mt0 * 2) 2000 else mt0] ∧
    (extractionSends mt0 r1 r2).2 = r2.content := by
  unfold extractionSends bumpMaxTokens
  rw [if_pos h]
  exact ⟨rfl, rfl⟩

/-- Witness for C1 (amended): a first response with `"length"` finish
reason triggers one retry at budget 2000. -/
theorem C1_single_retry_budget_witness :
    (extractionSends 1000 ⟨pstr "partial", some (pstr "length"), none⟩
        ⟨pstr "full", some (pstr "stop"), none⟩).1 =
      [1000, if extractFinishReason ⟨pstr "partial", some (pstr "length"), none⟩ =
          some (pstr "length") then max (1000 * 2) 2000 else 1000] ∧
    (extractionSends 1000 ⟨pstr "partial", some (pstr "length"), none⟩
        ⟨pstr "full", some (pstr "stop"), none⟩).2 = pstr "full" :=
  C1_single_retry_budget 1000 ⟨pstr "partial", some (pstr "length"), none⟩
    ⟨pstr "full", some (pstr "stop"), none⟩ (by right; rfl)

/-- Counterexample to C1 as stated: a first response with empty content
and finish reason `"stop"` is retried, but the second request keeps the
old budget 1000 instead of the claimed `max(2 * 1000, 2000) = 2000`. -/
theorem C1_counterexample :
    (extractionSends 1000 ⟨[], some (pstr "stop"), none⟩
        ⟨pstr "x", some (pstr "stop"), none⟩).1 = [1000, 1000] ∧
    (1000 : Nat) ≠ max (1000 * 2) 2000 := by
  exact ⟨rfl, by decide⟩

/-- C2: for each placeholder-checked required field, validation of a
string value fails exactly when the trimmed, lower-cased form is
`"n/a"`, `"unknown"`, or the empty string, and accepts every other
non-empty string.  `requireNonUnknown` is the validator the model applies
to `company`, `product`, `language`, `total_value` and `currency`. -/
theorem C2_placeholder_rejected (s : PyStr) :
    (pyLower (pyStrip s) = pstr "n/a" ∨ pyLower (pyStrip s) = pstr "unknown" ∨
        pyLower (pyStrip s) = [] →
      requireNonUnknown (.str s) = .error ()) ∧
    (¬(pyLower (pyStrip s) = pstr "n/a" ∨ pyLower (pyStrip s) = pstr "unknown" ∨
        pyLower (pyStrip s) = []) → s ≠ [] →
      requireNonUnknown (.str s) = .ok (.str s)) := by
  constructor
  · intro h
    simp only [requireNonUnknown]
    rw [if_pos h]
  · intro h _
    simp only [requireNonUnknown]
    rw [if_neg h]

/-- Witness for C2: the whitespace/case variant `" N/A "` is rejected and
the ordinary value `"ACME"` is accepted. -/
theorem C2_placeholder_rejected_witness :
    requireNonUnknown (.str (pstr " N/A ")) = .error () ∧
    requireNonUnknown (.str (pstr "ACME")) = .ok (.str (pstr "ACME")) :=
  ⟨(C2_placeholder_rejected (pstr " N/A ")).1 (by decide),
   (C2_placeholder_rejected (pstr "ACME")).2 (by decide) (by decide)⟩

/-- C3 (amended): the field normalizer collects every non-canonical
top-level key into `extra_fields` but does not drop it from the top
level: the `extra_fields` entry of the returned mapping equals exactly
the collection over the returned mapping's own top level (so those keys
are still present there), and that collection is a sublist of the
returned mapping's entries. -/
theorem C3_extra_fields_not_dropped (d : Dict) :
    dget (normalizeExtractedData d) "extra_fields" =
      some (.obj (collectExtra (normalizeExtractedData d))) ∧
    (collectExtra (normalizeExtractedData d)).Sublist (normalizeExtractedData d) := by
  constructor
  · unfold normalizeExtractedData extraFieldsStep
    rw [dget_dset_self, collectExtra_dset_extra]
  · exact List.filter_sublist _

/-- Counterexample to C3 as stated: normalizing `{"foo": 1}` leaves the
non-canonical key `foo` at the top level of the returned mapping even
though `foo` is collected into `extra_fields` and belongs neither to the
canonical eight-field set nor to the provenance fields. -/
theorem C3_counterexample :
    dget (normalizeExtractedData [("foo", .int 1)]) "foo" = some (.int 1) ∧
    dget (normalizeExtractedData [("foo", .int 1)]) "extra_fields" =
      some (.obj [("foo", .int 1)]) ∧
    "foo" ∉ ALLOWED_SCHEMA_KEYS ∧ "foo" ∉ provenanceFields ∧
    "foo" ≠ "extra_fields" := by
  refine ⟨rfl, rfl, by decide, by decide, by decide⟩

/-- C9 (amended): for every input string that is empty or consists
entirely of whitespace, `strip_code_fences` returns the empty string; the
empty input is thus returned unchanged, but a non-empty whitespace-only
input is collapsed to the empty string rather than returned unchanged. -/
theorem C9_whitespace_collapsed (s : PyStr) (h : ∀ c ∈ s, isPySpace c = true) :
    strip_code_fences s = [] := by
  by_cases hs : s = []
  · simp [strip_code_fences, hs]
  · have hps : pyStrip s = [] := by
      have : lstrip s = [] := List.dropWhile_eq_nil_iff.mpr h
      simp [pyStrip, this, rstrip]
    simp only [strip_code_fences, if_neg hs]
    rw [hps]
    rfl

/-- Witness for C9 (amended) at a single-space input. -/
theorem C9_whitespace_collapsed_witness : strip_code_fences [' '] = [] :=
  C9_whitespace_collapsed [' '] (by decide)

/-- Counterexample to C9 as stated: the whitespace-only input `" "` is
not returned unchanged; `strip_code_fences` strips it to the empty
string. -/
theorem C9_counterexample : strip_code_fences [' '] ≠ [' '] := by decide

/-- C10: the field normalizer is idempotent: for every input mapping,
applying `_normalize_extracted_data` twice yields exactly the same
mapping as applying it once — the company/product fallbacks, the
stringification, the language and currency canonicalization, and the
`extra_fields` computation are all stable on their own output. -/
theorem C10_normalize_idem (d : Dict) :
    normalizeExtractedData (normalizeExtractedData d) = normalizeExtractedData d := by
  have hexp : ∀ m, normalizeExtractedData m =
      extraFieldsStep (currencyStep (languageStep (stringifyStep (taxesPaidStep
        (totalValueStep (productStep (companyStep m))))))) := fun _ => rfl
  have kco : ∀ k, k ≠ "product" → k ≠ "total_value" → k ≠ "taxes_paid" →
      k ≠ "language" → k ≠ "currency" → k ≠ "extra_fields" →
      dget (normalizeExtractedData d) k = dget (companyStep d) k := by
    intro k h1 h2 h3 h4 h5 h6
    unfold normalizeExtractedData
    rw [extraFieldsStep_dget h6, currencyStep_dget h5, languageStep_dget h4,
      stringifyStep_dget h2 h3, taxesPaidStep_dget h3, totalValueStep_dget h2,
      productStep_dget h1]
  have kpr : ∀ k, k ≠ "total_value" → k ≠ "taxes_paid" → k ≠ "language" →
      k ≠ "currency" → k ≠ "extra_fields" →
      dget (normalizeExtractedData d) k = dget (productStep (companyStep d)) k := by
    intro k h2 h3 h4 h5 h6
    unfold normalizeExtractedData
    rw [extraFieldsStep_dget h6, currencyStep_dget h5, languageStep_dget h4,
      stringifyStep_dget h2 h3, taxesPaidStep_dget h3, totalValueStep_dget h2]
  have hCS : CompanyStable (normalizeExtractedData d) :=
    companyStable_mono
      (kco _ (by decide) (by decide) (by decide) (by decide) (by decide) (by decide))
      (kco _ (by decide) (by decide) (by decide) (by decide) (by decide) (by decide))
      (kco _ (by decide) (by decide) (by decide) (by decide) (by decide) (by decide))
      companyStep_stable
  have hPS : ProductStable (normalizeExtractedData d) :=
    productStable_mono
      (kpr _ (by decide) (by decide) (by decide) (by decide) (by decide))
      (kpr _ (by decide) (by decide) (by decide) (by decide) (by decide))
      productStep_stable
  have hTV : TotalValueStable (normalizeExtractedData d) := by
    have s1 : TotalValueStable (taxesPaidStep (totalValueStep (productStep (companyStep d)))) :=
      totalValueStable_mono (taxesPaidStep_dget (by decide))
        (taxesPaidStep_dget (by decide)) totalValueStep_stable
    have s2 : TotalValueStable (stringifyStep (taxesPaidStep (totalValueStep
        (productStep (companyStep d))))) :=
      totalValueStable_mono (stringifyOne_dget (by decide))
        (stringifyOne_dget (by decide)) (totalValueStable_stringifySame s1)
    rw [hexp d]
    exact totalValueStable_mono (extraFieldsStep_dget (by decide))
      (extraFieldsStep_dget (by decide))
      (totalValueStable_mono (currencyStep_dget (by decide))
        (currencyStep_dget (by decide))
        (totalValueStable_mono (languageStep_dget (by decide))
          (languageStep_dget (by decide)) s2))
  have hTP : TaxesStable (normalizeExtractedData d) := by
    have s1 : TaxesStable (stringifyOne (taxesPaidStep (totalValueStep (productStep
        (companyStep d)))) "total_value") :=
      taxesStable_mono (stringifyOne_dget (by decide)) (stringifyOne_dget (by decide))
        taxesPaidStep_stable
    have s2 : TaxesStable (stringifyStep (taxesPaidStep (totalValueStep
        (productStep (companyStep d))))) :=
      taxesStable_stringifySame s1
    rw [hexp d]
    exact taxesStable_mono (extraFieldsStep_dget (by decide))
      (extraFieldsStep_dget (by decide))
      (taxesStable_mono (currencyStep_dget (by decide))
        (currencyStep_dget (by decide))
        (taxesStable_mono (languageStep_dget (by decide))
          (languageStep_dget (by decide)) s2))
  have hSV : StrOrNullAt (normalizeExtractedData d) "total_value" := by
    rw [hexp d]
    exact strOrNullAt_mono (extraFieldsStep_dget (by decide))
      (strOrNullAt_mono (currencyStep_dget (by decide))
        (strOrNullAt_mono (languageStep_dget (by decide)) stringifyStep_stable_tv))
  have hSP : StrOrNullAt (normalizeExtractedData d) "taxes_paid" := by
    rw [hexp d]
    exact strOrNullAt_mono (extraFieldsStep_dget (by decide))
      (strOrNullAt_mono (currencyStep_dget (by decide))
        (strOrNullAt_mono (languageStep_dget (by decide)) stringifyStep_stable_tp))
  have hLS : LanguageStable (normalizeExtractedData d) := by
    rw [hexp d]
    exact languageStable_mono (extraFieldsStep_dget (by decide))
      (languageStable_mono (currencyStep_dget (by decide)) languageStep_stable)
  have hCU : CurrencyStable (normalizeExtractedData d) := by
    rw [hexp d]
    exact currencyStable_mono (extraFieldsStep_dget (by decide)) currencyStep_stable
  rw [hexp (normalizeExtractedData d), companyStep_of_stable hCS,
    productStep_of_stable hPS, totalValueStep_of_stable hTV,
    taxesPaidStep_of_stable hTP, stringifyStep_of_stable hSV hSP,
    languageStep_of_stable hLS, currencyStep_of_stable hCU, hexp d]
  exact extraFieldsStep_idem

end InvoiceScout
